import Mathlib

set_option maxHeartbeats 1000000

/-!
Verification development for the MaxScale excerpt consisting of
namedserverfilter.cc, luafilter.c and the worker message header.

The definitions below are shallow embeddings of the source functions.
External collaborators (pcre2 matching and compilation, modutil SQL
extraction, setipaddress, the Lua interpreter) are abstracted as oracle
parameters; everything the excerpt itself computes is translated
structurally from the source.
-/

namespace NamedServer

/-- PCRE2 result code for a failed match attempt (pcre2.h:
PCRE2_ERROR_NOMATCH = -1).  A pcre2_match result that is negative but
different from this value is a matching error (for example a match-limit
overflow or a NULL match-data block). -/
def PCRE2_ERROR_NOMATCH : Int := -1

/-- Routing hint types (maxscale/hint.h).  namedserverfilter only ever
creates HINT_ROUTE_TO_NAMED_SERVER hints. -/
inductive HINT_TYPE
  | HINT_ROUTE_TO_NAMED_SERVER
deriving DecidableEq

/-- A routing hint attached to a buffer: the hint type plus its data, here
the target server name.  hint_create_route (external to the excerpt) links
a freshly allocated hint in front of the current list and returns the new
head. -/
structure Hint where
  type : HINT_TYPE
  data : String
deriving DecidableEq

/-- Query buffer model.  The field sql is some text exactly when the buffer
is a COM_QUERY packet, in which case modutil_is_SQL is true and
modutil_extract_SQL yields the text (modutil is external to the excerpt and
its extraction succeeds precisely on SQL buffers); hint is the list of
routing hints hanging off the buffer. -/
structure GWBUF where
  sql : Option String
  hint : List Hint
deriving DecidableEq

/-- Maximal non-empty tokens of a string split at commas: the sequence of
tokens produced by strtok_r with delimiter set ",". -/
def strtok_commas (s : String) : List String :=
  (s.splitOn ",").filter (fun t => t ≠ "")

/-- RegexToServers::add_servers parses a comma separated server list with
strtok_r and records each token; the entry keeps the names in order.  The
returned count of the source is the length of this list (the -1 return
happens only if MXS_STRDUP_A failed, which aborts the process and is
outside the model). -/
def add_servers (server_names : String) : List String :=
  strtok_commas server_names

/-- One entry of the regex to servers mapping (struct RegexToServers).
The compiled pcre2 regex is represented by its pattern text m_match;
matching is delegated to pcre2 and abstracted as an oracle where used. -/
structure RegexToServers where
  m_match : String
  m_servers : List String
deriving DecidableEq

/-- The session structure RegexHintSess_t: diversion counters, the active
flag computed at newSession from the source/user restrictions, and the
once-per-session error print flag. -/
structure RegexHintSess where
  n_diverted : Nat
  n_undiverted : Nat
  active : Bool
  regex_error_printed : Bool
deriving DecidableEq

/-- RegexHintInst::find_servers: scan the mapping in order.  The
pcre2_match result of matching the compiled pattern pat against the sql
text is supplied by the oracle pm pat sql (at least 0: match;
PCRE2_ERROR_NOMATCH: no match, continue; any other negative value:
matching error, which aborts the scan).  Returns the pcre2 result together
with the servers out-parameter, [] when no entry was selected (the caller
reads the servers only on success). -/
def find_servers (pm : String → String → Int) :
    List RegexToServers → String → Int × List String
  | [], _ => (PCRE2_ERROR_NOMATCH, [])
  | e :: rest, sql =>
    let result := pm e.m_match sql
    if result ≥ 0 then (result, e.m_servers)
    else if result = PCRE2_ERROR_NOMATCH then find_servers pm rest sql
    else (result, [])

/-- The hint list after the for-loop in RegexHintInst::routeQuery, which
calls hint_create_route once per server name, each call linking a new
HINT_ROUTE_TO_NAMED_SERVER hint in front of the list. -/
def attach_hints (servers : List String) (h : List Hint) : List Hint :=
  servers.foldl (fun acc srv => Hint.mk HINT_TYPE.HINT_ROUTE_TO_NAMED_SERVER srv :: acc) h

/-- INET_ADDRSTRLEN from netinet/in.h: 16. -/
def INET_ADDRSTRLEN : Nat := 16

/-- The character walk of validate_ip_address: every byte must be a digit,
a dot or a percent wildcard, and the dots are counted on the way.  Returns
the dot count together with the validity of the scanned characters (the
count is irrelevant when the scan rejects). -/
def validate_loop : List Char → Nat → Nat × Bool
  | [], n_dots => (n_dots, true)
  | c :: rest, n_dots =>
    if ¬(c.isDigit ∨ c = '.' ∨ c = '%') then (n_dots, false)
    else validate_loop rest (if c = '.' then n_dots + 1 else n_dots)

/-- validate_ip_address: reject a host that begins with a percent or a dot
or is longer than INET_ADDRSTRLEN; reject any character that is not a
digit, a dot or a percent; accept exactly when the scan saw three dots and
the final character is not a dot.  The strings involved are ASCII, so the
strlen of the source is the character count here. -/
def validate_ip_address (host : String) : Bool :=
  let cs := host.toList
  if cs.head? = some '%' ∨ cs.head? = some '.' ∨ cs.length > INET_ADDRSTRLEN then
    false
  else
    let pr := validate_loop cs 0
    if pr.2 then (pr.1 == 3) && !(cs.getLast? == some '.') else false

/-- The wildcard rewriting loop of set_source_address: while characters
remain and at most three dots have been passed, copy each character, except
that a percent becomes the digit 1 in the last byte (after the third dot)
and the digit 0 before, and each percent lowers the netmask by 8.  Returns
the rewritten format_host characters and the final netmask. -/
def format_loop : List Char → Nat → Int → List Char × Int
  | [], _, netmask => ([], netmask)
  | c :: rest, bytes, netmask =>
    if bytes > 3 then ([], netmask)
    else if c = '%' then
      let pr := format_loop rest bytes (netmask - 8)
      ((if bytes == 3 then '1' else '0') :: pr.1, pr.2)
    else
      let pr := format_loop rest (if c = '.' then bytes + 1 else bytes) netmask
      (c :: pr.1, pr.2)

/-- struct source_host (REGEXHINT_SOURCE_HOST): the configured address, or
none when the field was left NULL because the input was unusable, plus the
derived netmask.  The sockaddr_in payload is kept abstract; the claims only
concern the address and netmask fields. -/
structure SOURCE_HOST where
  address : Option String
  netmask : Int
deriving DecidableEq

/-- set_source_address: validate the host; with no wildcard keep it with
netmask 32; with wildcards rewrite the percents, derive the netmask, and
keep the address only if setipaddress accepts the rewritten host (the
oracle setipOk stands for the external setipaddress).  A rejected or
unparsable input leaves the address field NULL in the calloc-zeroed
struct.  The NULL return of the source happens only on allocation failure,
which is outside the model. -/
def set_source_address (setipOk : String → Bool) (input_host : String) :
    SOURCE_HOST :=
  if ¬ validate_ip_address input_host then
    { address := none, netmask := 0 }
  else if ¬ input_host.toList.contains '%' then
    { address := some input_host, netmask := 32 }
  else
    let pr := format_loop input_host.toList 0 32
    let format_host := String.mk pr.1
    if setipOk format_host ∧ format_host.length ≠ 0 then
      { address := some input_host, netmask := pr.2 }
    else
      { address := none, netmask := pr.2 }

/-- The filter instance RegexHintInst: the regex to servers mapping and the
optional source restriction.  The user restriction and statistics do not
matter to the claims and newSession consumes them before routeQuery runs. -/
structure RegexHintInst where
  m_mapping : List RegexToServers
  m_source : Option SOURCE_HOST
deriving DecidableEq

/-- RegexHintInst::routeQuery: when the buffer is SQL and the session is
active, extract the text and scan the mapping; on a match attach one
HINT_ROUTE_TO_NAMED_SERVER hint per server of the selected entry and count
the statement as diverted; on no match or on a matching error count it as
undiverted (printing the error once per session).  In every case the
buffer, with whatever hints it now carries, is handed to the downstream
component; the returned pair is the updated session and that buffer. -/
def routeQuery (pm : String → String → Int) (inst : RegexHintInst)
    (s : RegexHintSess) (queue : GWBUF) : RegexHintSess × GWBUF :=
  match queue.sql, s.active with
  | some sql, true =>
    let r := find_servers pm inst.m_mapping sql
    if r.1 ≥ 0 then
      ({ s with n_diverted := s.n_diverted + 1 },
       { queue with hint := attach_hints r.2 queue.hint })
    else if r.1 = PCRE2_ERROR_NOMATCH then
      ({ s with n_undiverted := s.n_undiverted + 1 }, queue)
    else
      ({ s with n_undiverted := s.n_undiverted + 1,
                regex_error_printed := true }, queue)
  | _, _ => (s, queue)

/-- A sequence of routeQuery calls on one session, threading the session
state. -/
def routeAll (pm : String → String → Int) (inst : RegexHintInst) :
    RegexHintSess → List GWBUF → RegexHintSess
  | s, [] => s
  | s, q :: qs => routeAll pm inst (routeQuery pm inst s q).1 qs

/-- The body of the parameter loop of form_regex_server_mapping for one
(match, server) parameter pair, threading the (mapping, error) accumulator:
skip a pair unless both strings are non-empty; compile the regex (the
oracle compileOk stands for pcre2_compile with the configured options);
on compilation failure set the error flag; otherwise parse the server list
and append the entry when at least one name was found, setting the error
flag when none was. -/
def mapping_step (compileOk : String → Bool)
    (acc : List RegexToServers × Bool) (p : String × String) :
    List RegexToServers × Bool :=
  if p.1.length < 1 ∨ p.2.length < 1 then acc
  else if compileOk p.1 then
    if (add_servers p.2).length ≠ 0 then
      (acc.1 ++ [RegexToServers.mk p.1 (add_servers p.2)], acc.2)
    else (acc.1, true)
  else (acc.1, true)

/-- form_regex_server_mapping: run the parameter loop over all configured
(matchXX, serverXX) pairs (config_get_string yields "" for an absent
parameter) and, if any pair raised the error flag, free every compiled
regex and clear the mapping. -/
def form_regex_server_mapping (compileOk : String → Bool)
    (params : List (String × String)) : List RegexToServers :=
  let pr := params.foldl (mapping_step compileOk) ([], false)
  if pr.2 then [] else pr.1

/-- createInstance: build the source restriction when the source parameter
is non-empty, form the mapping, and refuse to create the instance when the
mapping came out empty (set_source_address returns NULL only on allocation
failure, which is outside the model, so the separate error flag of the
source stays false here). -/
def createInstance (compileOk : String → Bool) (setipOk : String → Bool)
    (source_cfg : String) (params : List (String × String)) :
    Option RegexHintInst :=
  let source := if source_cfg ≠ "" then
                  some (set_source_address setipOk source_cfg)
                else none
  let mapping := form_regex_server_mapping compileOk params
  if mapping.length = 0 then none
  else some (RegexHintInst.mk mapping source)

/-- The entries the parameter loop appends: one entry per configured pair
(both parameter strings non-empty) whose regex compiles and whose server
list parses to at least one name. -/
def good_entries (compileOk : String → Bool)
    (params : List (String × String)) : List RegexToServers :=
  params.filterMap (fun p =>
    if p.1.length == 0 || p.2.length == 0 then none
    else if compileOk p.1 && !((add_servers p.2).length == 0) then
      some (RegexToServers.mk p.1 (add_servers p.2))
    else none)

/-- A configured pair (both parameter strings non-empty) that makes the
parameter loop raise its error flag: the regex does not compile or the
server list parses to no names. -/
def bad_pair (compileOk : String → Bool) (p : String × String) : Bool :=
  !(p.1.length == 0) && !(p.2.length == 0) &&
    (!compileOk p.1 || (add_servers p.2).length == 0)

/-- Concrete match oracle: a one-character pattern reports the pcre2 error
-2 (for example a match-limit overflow), a longer pattern matches with
result 1. -/
def errPm : String → String → Int :=
  fun pat _ => if pat.length == 1 then -2 else 1

/-- Concrete mapping exercising errPm: its first entry reports a matching
error and its second entry matches. -/
def errInst : RegexHintInst :=
  RegexHintInst.mk
    [RegexToServers.mk "a" ["server1"], RegexToServers.mk "bb" ["server2"]]
    none

/-- A fresh active session, as newSession builds it for an unrestricted
client. -/
def freshSess : RegexHintSess := RegexHintSess.mk 0 0 true false

/-- A concrete SQL buffer carrying no hints. -/
def sqlBuf : GWBUF := GWBUF.mk (some "q") []

/-- A match oracle that reports a match (result 1) for every pattern. -/
def okPm : String → String → Int := fun _ _ => 1

/-- A one-entry instance whose single regex is matched by okPm. -/
def oneInst : RegexHintInst :=
  RegexHintInst.mk [RegexToServers.mk "m" ["server1"]] none

/-- A concrete compile oracle: patterns longer than two characters fail to
compile. -/
def shortOk : String → Bool := fun pat => decide (pat.length ≤ 2)

/-- A concrete setipaddress oracle accepting every host string. -/
def allIp : String → Bool := fun _ => true

end NamedServer

namespace LuaFilter

/-- A Lua value as the C API sees it at a given stack slot.  lua_isstring
is true for strings and for numbers (which lua_tostring converts); nil,
booleans and every other type are not strings. -/
inductive LuaValue
  | nil
  | boolean (b : Bool)
  | str (s : String)
  | num (n : Int)
  | other
deriving DecidableEq

/-- lua_isstring: true for actual strings and for numbers. -/
def lua_isstring : LuaValue → Bool
  | .str _ => true
  | .num _ => true
  | _ => false

/-- lua_tostring on a value for which lua_isstring holds: the string
itself, or the decimal rendering of a number. -/
def lua_tostring : LuaValue → String
  | .str s => s
  | .num n => toString n
  | _ => ""

/-- Outcome of lua_pcall on the routeQuery entry of one script with one
requested result: failed when the pcall raises an error (including when
the script does not define routeQuery, so that a nil value is called),
otherwise the single stack-adjusted result value — a script returning no
value yields nil here, because lua_pcall pads the results. -/
inductive LuaCall
  | failed
  | ok (v : LuaValue)
deriving DecidableEq

/-- One Lua state between entry points: the values left on its stack from
earlier API activity (head = top; [] in a balanced state) and the outcome
of calling the routeQuery function of the script on the query text. -/
structure LuaStateModel where
  residual : List LuaValue
  callRouteQuery : String → LuaCall

/-- The luafilter query buffer: the COM_QUERY text when the buffer is SQL
(modutil_is_SQL and modutil_get_SQL are external to the excerpt). -/
structure LQueue where
  sql : Option String
deriving DecidableEq

/-- modutil_create_query: a fresh COM_QUERY buffer holding the text. -/
def modutil_create_query (s : String) : LQueue := LQueue.mk (some s)

/-- What the luafilter routeQuery finally does with the buffer: pass a
forward buffer to the downstream component, or drop the query and write a
mysql error packet with the given message to the client DCB. -/
inductive RouteResult
  | routed (forward : LQueue)
  | errpkt (msg : String)
deriving DecidableEq

/-- luafilter routeQuery.  For an SQL buffer the session script part runs
first: lua_pcall with one argument and one requested result; on success
the stack is non-empty (lua_gettop positive) and the top value — the
result — is interpreted: a string replaces the forward buffer by a new
query built from it, a boolean becomes the route decision, anything else
changes nothing; a pcall failure pops the error and clears the stack,
changing nothing.  The global script part then runs with zero requested
results, so its return values are discarded; the value branch of the
source can only see values already left on the global stack beforehand
(its residual), and with a balanced (empty) global stack lua_gettop is 0
and nothing is interpreted.  Finally a false route decision frees the
query and writes an Access denied error packet (errno 1045, state 28000)
to the client; otherwise the forward buffer goes downstream.  A non-SQL
buffer skips the scripts and goes downstream unchanged. -/
def routeQuery (sess : Option LuaStateModel) (glob : Option LuaStateModel)
    (queue : LQueue) : RouteResult :=
  match queue.sql with
  | none => .routed queue
  | some fullquery =>
    let pr1 : Bool × LQueue :=
      match sess with
      | none => (true, queue)
      | some st =>
        match st.callRouteQuery fullquery with
        | .failed => (true, queue)
        | .ok v =>
          if lua_isstring v then (true, modutil_create_query (lua_tostring v))
          else match v with
               | .boolean b => (b, queue)
               | _ => (true, queue)
    let pr2 : Bool × LQueue :=
      match glob with
      | none => pr1
      | some st =>
        match st.callRouteQuery fullquery with
        | .failed => pr1
        | .ok _ =>
          match st.residual with
          | [] => pr1
          | top :: _ =>
            if lua_isstring top then (pr1.1, modutil_create_query (lua_tostring top))
            else match top with
                 | .boolean b => (b, pr1.2)
                 | _ => pr1
    if pr2.1 then .routed pr2.2 else .errpkt "Access denied."

/-- A concrete session state whose routeQuery entry returns nil. -/
def nilSess : LuaStateModel :=
  LuaStateModel.mk [] (fun _ => LuaCall.ok LuaValue.nil)

/-- A concrete global state as one diagnostic call leaves it behind:
diagnostic runs lua_pcall with one requested result and never pops it
(luafilter.c:671-679), so the returned diagnostic string stays on the
global stack; the routeQuery entry of the script itself succeeds. -/
def diagGlob : LuaStateModel :=
  LuaStateModel.mk [LuaValue.str "diag"] (fun _ => LuaCall.ok LuaValue.nil)

end LuaFilter

namespace Worker

/-- enum mxs_worker_msg_id, from the worker header of the excerpt. -/
inductive MsgId
  | PING
  | SHUTDOWN
  | CALL
deriving DecidableEq

/-- A worker message: the fixed-layout record with id, arg1 and arg2 of
the header (arg1 and arg2 are opaque intptr_t words). -/
structure Message where
  id : MsgId
  arg1 : Int
  arg2 : Int
deriving DecidableEq

/-- Modelled from the spec: the channel implementation (worker.c) is not
part of the excerpt, only the header declarations are.  Spec sections 2
and 4.2 describe a bounded, unidirectional, cross-thread FIFO conduit of
fixed-size records; a full or closed channel makes post fail rather than
block. -/
structure Channel where
  capacity : Nat
  buf : List Message
  closed : Bool
deriving DecidableEq

/-- Modelled from the spec: struct mxs_worker pairing the channel with the
lifecycle flags (the thread handle and poll registration of the header are
not representable in the embedding). -/
structure MXS_WORKER where
  id : Int
  channel : Channel
  should_shutdown : Bool
deriving DecidableEq

/-- Modelled from the spec (section 4.2): mxs_worker_post_message appends
one fixed-size record to the channel of the worker and reports success;
a closed or full channel makes it return false with the state unchanged —
no retry, no blocking (the model is a total function of the pre-state). -/
def mxs_worker_post_message (w : MXS_WORKER) (msg_id : MsgId)
    (arg1 arg2 : Int) : Bool × MXS_WORKER :=
  if w.channel.closed ∨ w.channel.buf.length ≥ w.channel.capacity then
    (false, w)
  else
    (true, { w with channel :=
      { w.channel with buf := w.channel.buf ++ [Message.mk msg_id arg1 arg2] } })

/-- Modelled from the spec (section 4.3): mxs_worker_broadcast_message
iterates the immutable worker set, posting a record with the same id, arg1
and arg2 to each worker, and returns how many posts succeeded together
with the updated workers. -/
def mxs_worker_broadcast_message (ws : List MXS_WORKER) (msg_id : MsgId)
    (arg1 arg2 : Int) : Nat × List MXS_WORKER :=
  match ws with
  | [] => (0, [])
  | w :: rest =>
    let p := mxs_worker_post_message w msg_id arg1 arg2
    let r := mxs_worker_broadcast_message rest msg_id arg1 arg2
    ((if p.1 then 1 else 0) + r.1, p.2 :: r.2)

/-- Modelled from the spec: one posting thread sends the given messages in
order, each through mxs_worker_post_message; the result is the final
worker state together with the sub-sequence of messages that were
accepted. -/
def post_all : MXS_WORKER → List Message → MXS_WORKER × List Message
  | w, [] => (w, [])
  | w, m :: ms =>
    let p := mxs_worker_post_message w m.id m.arg1 m.arg2
    let r := post_all p.2 ms
    (r.1, (if p.1 then [m] else []) ++ r.2)

/-- Modelled from the spec (section 4.4): on channel readiness the worker
drains the complete records one at a time in arrival order, so the
dispatch order is the FIFO order of the channel content. -/
def drain (c : Channel) : List Message × Channel :=
  (c.buf, { c with buf := [] })

/-- Does a drained batch contain a SHUTDOWN record? -/
def has_shutdown (b : List Message) : Bool :=
  b.any (fun m => m.id == MsgId.SHUTDOWN)

/-- Modelled from the spec (section 4.4): the event loop processes the
successively drained batches in order; a batch containing a SHUTDOWN
record sets should_shutdown, the already-drained records of that batch are
still dispatched, and the loop then exits — the only way it terminates,
after which the thread is joinable.  Input: the batches drained from the
channel over the run; output: the dispatched message sequence and whether
the loop exited. -/
def run_loop : List (List Message) → List Message × Bool
  | [] => ([], false)
  | b :: rest =>
    if has_shutdown b then (b, true)
    else
      let r := run_loop rest
      (b ++ r.1, r.2)

end Worker

namespace LuaFilter

/-- C2 (amended): for an SQL query buffer routed through a luafilter
session whose session script defines routeQuery, provided the stack of the
global Lua state is empty when routeQuery is invoked (hypothesis hg),
the return value of the Lua function is interpreted as follows — boolean
false: the query is not routed and an Access denied error packet is
written to the client; a string: the query buffer is replaced by a new
query built from that string and the replacement is routed downstream;
nil (also what a value-less return adjusts to): the original query is
routed downstream unchanged.  The proviso hg is the amendment: the pcall
of the global script requests zero results, so normally it cannot
override the session outcome, but a prior diagnostic call leaks its
result onto the global stack (luafilter.c:671-679 never pops it), after
which the global branch of routeQuery (lines 615-626) interprets that
residual and overrides the session outcome — the counterexample below. -/
theorem C2_lua_return_interpretation (sess : LuaStateModel)
    (glob : Option LuaStateModel) (queue : LQueue) (fullquery : String)
    (hq : queue.sql = some fullquery)
    (hg : ∀ g ∈ glob, g.residual = []) :
    (sess.callRouteQuery fullquery = LuaCall.ok (LuaValue.boolean false) →
      routeQuery (some sess) glob queue = RouteResult.errpkt "Access denied.") ∧
    (∀ s, sess.callRouteQuery fullquery = LuaCall.ok (LuaValue.str s) →
      routeQuery (some sess) glob queue
        = RouteResult.routed (modutil_create_query s)) ∧
    (sess.callRouteQuery fullquery = LuaCall.ok LuaValue.nil →
      routeQuery (some sess) glob queue = RouteResult.routed queue) := by
  refine ⟨?_, ?_, ?_⟩
  · intro hc
    cases glob with
    | none => simp [routeQuery, hq, hc, lua_isstring]
    | some g =>
      have hgr : g.residual = [] := hg g rfl
      cases hcall : g.callRouteQuery fullquery with
      | failed => simp [routeQuery, hq, hc, hcall, lua_isstring]
      | ok v => simp [routeQuery, hq, hc, hcall, hgr, lua_isstring]
  · intro s hc
    cases glob with
    | none => simp [routeQuery, hq, hc, lua_isstring, lua_tostring]
    | some g =>
      have hgr : g.residual = [] := hg g rfl
      cases hcall : g.callRouteQuery fullquery with
      | failed => simp [routeQuery, hq, hc, hcall, lua_isstring, lua_tostring]
      | ok v => simp [routeQuery, hq, hc, hcall, hgr, lua_isstring, lua_tostring]
  · intro hc
    cases glob with
    | none => simp [routeQuery, hq, hc, lua_isstring]
    | some g =>
      have hgr : g.residual = [] := hg g rfl
      cases hcall : g.callRouteQuery fullquery with
      | failed => simp [routeQuery, hq, hc, hcall, lua_isstring]
      | ok v => simp [routeQuery, hq, hc, hcall, hgr, lua_isstring]

/-- Witness for C2: a session script whose routeQuery returns false makes
the filter write the Access denied packet instead of routing. -/
theorem C2_lua_return_interpretation_witness :
    (LQueue.mk (some "SELECT 1")).sql = some "SELECT 1" ∧
    routeQuery
        (some (LuaStateModel.mk []
          (fun _ => LuaCall.ok (LuaValue.boolean false)))) none
        (LQueue.mk (some "SELECT 1"))
      = RouteResult.errpkt "Access denied." :=
  ⟨rfl,
   (C2_lua_return_interpretation
      (LuaStateModel.mk [] (fun _ => LuaCall.ok (LuaValue.boolean false)))
      none (LQueue.mk (some "SELECT 1")) "SELECT 1" rfl
      (by intro g hg; simp at hg)).1 rfl⟩

/-- C2 is false as stated: after a diagnostic call has left its string
result on the global stack, the global branch of routeQuery sees a
positive lua_gettop, interprets that residual string and replaces the
forward buffer, so a session script returning nil does not get the
original query routed unchanged. -/
theorem C2_counterexample :
    nilSess.callRouteQuery "SELECT 1" = LuaCall.ok LuaValue.nil ∧
    routeQuery (some nilSess) (some diagGlob) (LQueue.mk (some "SELECT 1"))
      = RouteResult.routed (modutil_create_query "diag") ∧
    RouteResult.routed (modutil_create_query "diag")
      ≠ RouteResult.routed (LQueue.mk (some "SELECT 1")) := by
  refine ⟨rfl, rfl, by decide⟩

end LuaFilter

namespace Worker

/-- A successful post is exactly one into an open channel with room. -/
theorem post_message_succeeds_iff (w : MXS_WORKER) (msg_id : MsgId)
    (arg1 arg2 : Int) :
    (mxs_worker_post_message w msg_id arg1 arg2).1 = true ↔
      (w.channel.closed = false ∧ w.channel.buf.length < w.channel.capacity) := by
  unfold mxs_worker_post_message
  by_cases h : w.channel.closed = true ∨ w.channel.buf.length ≥ w.channel.capacity
  · rw [if_pos h]
    simp only [Bool.false_eq_true, false_iff, not_and, not_lt]
    intro hcl
    rcases h with h | h
    · rw [hcl] at h; cases h
    · exact h
  · rw [if_neg h]
    simp only [not_or, Bool.not_eq_true, not_le] at h
    simpa using h

/-- A failed post leaves the worker unchanged. -/
theorem post_message_fail_frame (w : MXS_WORKER) (msg_id : MsgId)
    (arg1 arg2 : Int)
    (h : (mxs_worker_post_message w msg_id arg1 arg2).1 = false) :
    (mxs_worker_post_message w msg_id arg1 arg2).2 = w := by
  unfold mxs_worker_post_message at h ⊢
  by_cases hc : w.channel.closed = true ∨ w.channel.buf.length ≥ w.channel.capacity
  · simp [hc]
  · simp [hc] at h

/-- A successful post appends exactly the posted record. -/
theorem post_message_success_buf (w : MXS_WORKER) (msg_id : MsgId)
    (arg1 arg2 : Int)
    (h : (mxs_worker_post_message w msg_id arg1 arg2).1 = true) :
    (mxs_worker_post_message w msg_id arg1 arg2).2.channel.buf
      = w.channel.buf ++ [Message.mk msg_id arg1 arg2] := by
  unfold mxs_worker_post_message at h ⊢
  by_cases hc : w.channel.closed = true ∨ w.channel.buf.length ≥ w.channel.capacity
  · simp [hc] at h
  · simp [hc]

/-- C3: for every worker and message, mxs_worker_post_message returns true
if and only if the fixed-size record was enqueued into the channel of the
worker (the buffer grew by exactly that record), and it returns false,
leaving the worker unchanged, when the channel is full or closed; the
operation is a total function of the pre-state, so it neither blocks nor
retries. -/
theorem C3_post_message_contract (w : MXS_WORKER) (msg_id : MsgId)
    (arg1 arg2 : Int) :
    ((mxs_worker_post_message w msg_id arg1 arg2).1 = true ↔
      (mxs_worker_post_message w msg_id arg1 arg2).2.channel.buf
        = w.channel.buf ++ [Message.mk msg_id arg1 arg2]) ∧
    ((w.channel.closed = true ∨ w.channel.buf.length ≥ w.channel.capacity) →
      (mxs_worker_post_message w msg_id arg1 arg2).1 = false ∧
      (mxs_worker_post_message w msg_id arg1 arg2).2 = w) := by
  constructor
  · constructor
    · exact post_message_success_buf w msg_id arg1 arg2
    · intro hb
      cases hs : (mxs_worker_post_message w msg_id arg1 arg2).1
      · have := post_message_fail_frame w msg_id arg1 arg2 hs
        rw [this] at hb
        exact absurd hb (by simp)
      · rfl
  · intro h
    have hf : (mxs_worker_post_message w msg_id arg1 arg2).1 = false := by
      cases hs : (mxs_worker_post_message w msg_id arg1 arg2).1
      · rfl
      · have := (post_message_succeeds_iff w msg_id arg1 arg2).mp hs
        rcases h with h | h
        · rw [this.1] at h; cases h
        · omega
    exact ⟨hf, post_message_fail_frame w msg_id arg1 arg2 hf⟩

/-- Witness for C3 at a concrete worker with a full channel of capacity 0. -/
theorem C3_post_message_contract_witness :
    (((mxs_worker_post_message (MXS_WORKER.mk 0 (Channel.mk 0 [] false) false)
        MsgId.PING 0 0).1 = true ↔
      (mxs_worker_post_message (MXS_WORKER.mk 0 (Channel.mk 0 [] false) false)
        MsgId.PING 0 0).2.channel.buf
        = (MXS_WORKER.mk 0 (Channel.mk 0 [] false) false).channel.buf
            ++ [Message.mk MsgId.PING 0 0]) ∧
    (((MXS_WORKER.mk 0 (Channel.mk 0 [] false) false).channel.closed = true ∨
      (MXS_WORKER.mk 0 (Channel.mk 0 [] false) false).channel.buf.length ≥
        (MXS_WORKER.mk 0 (Channel.mk 0 [] false) false).channel.capacity) →
      (mxs_worker_post_message (MXS_WORKER.mk 0 (Channel.mk 0 [] false) false)
        MsgId.PING 0 0).1 = false ∧
      (mxs_worker_post_message (MXS_WORKER.mk 0 (Channel.mk 0 [] false) false)
        MsgId.PING 0 0).2 = MXS_WORKER.mk 0 (Channel.mk 0 [] false) false)) :=
  C3_post_message_contract (MXS_WORKER.mk 0 (Channel.mk 0 [] false) false)
    MsgId.PING 0 0

/-- C4: broadcast_message posts a record with the same id and the exact
same arg1/arg2 to each worker of the immutable set in turn and returns the
number of workers whose post succeeded; when every channel is open with
capacity available the count equals the number of workers. -/
theorem C4_broadcast_contract (ws : List MXS_WORKER) (msg_id : MsgId)
    (arg1 arg2 : Int) :
    (mxs_worker_broadcast_message ws msg_id arg1 arg2).2
      = ws.map (fun w => (mxs_worker_post_message w msg_id arg1 arg2).2) ∧
    (mxs_worker_broadcast_message ws msg_id arg1 arg2).1
      = (ws.filter
          (fun w => (mxs_worker_post_message w msg_id arg1 arg2).1)).length ∧
    ((∀ w ∈ ws, w.channel.closed = false ∧
        w.channel.buf.length < w.channel.capacity) →
      (mxs_worker_broadcast_message ws msg_id arg1 arg2).1 = ws.length) := by
  refine ⟨?_, ?_, ?_⟩
  · induction ws with
    | nil => rfl
    | cons w rest ih => simp [mxs_worker_broadcast_message, ih]
  · induction ws with
    | nil => rfl
    | cons w rest ih =>
      simp only [mxs_worker_broadcast_message, List.filter]
      cases hs : (mxs_worker_post_message w msg_id arg1 arg2).1
      · simpa [hs] using ih
      · simp only [hs, if_pos, List.length_cons, ih]
        omega
  · intro h
    induction ws with
    | nil => rfl
    | cons w rest ih =>
      have hw := h w (by simp)
      have hs : (mxs_worker_post_message w msg_id arg1 arg2).1 = true :=
        (post_message_succeeds_iff w msg_id arg1 arg2).mpr hw
      simp only [mxs_worker_broadcast_message, hs, if_pos, List.length_cons]
      have := ih (fun x hx => h x (by simp [hx]))
      omega

/-- Witness for C4: broadcasting to two workers with room succeeds twice. -/
theorem C4_broadcast_contract_witness :
    (∀ w ∈ [MXS_WORKER.mk 0 (Channel.mk 1 [] false) false,
            MXS_WORKER.mk 1 (Channel.mk 2 [] false) false],
       w.channel.closed = false ∧
       w.channel.buf.length < w.channel.capacity) ∧
    (mxs_worker_broadcast_message
       [MXS_WORKER.mk 0 (Channel.mk 1 [] false) false,
        MXS_WORKER.mk 1 (Channel.mk 2 [] false) false]
       MsgId.PING 0 0).1
      = [MXS_WORKER.mk 0 (Channel.mk 1 [] false) false,
         MXS_WORKER.mk 1 (Channel.mk 2 [] false) false].length :=
  ⟨by decide,
   (C4_broadcast_contract
      [MXS_WORKER.mk 0 (Channel.mk 1 [] false) false,
       MXS_WORKER.mk 1 (Channel.mk 2 [] false) false]
      MsgId.PING 0 0).2.2 (by decide)⟩

/-- The accepted sub-sequence of a posting run extends the channel in send
order. -/
theorem post_all_spec (ms : List Message) : ∀ w : MXS_WORKER,
    (post_all w ms).1.channel.buf = w.channel.buf ++ (post_all w ms).2 ∧
    (post_all w ms).2.Sublist ms := by
  induction ms with
  | nil => intro w; simp [post_all]
  | cons m rest ih =>
    intro w
    cases hs : (mxs_worker_post_message w m.id m.arg1 m.arg2).1
    · have hfr := post_message_fail_frame w m.id m.arg1 m.arg2 hs
      have h2 := ih (mxs_worker_post_message w m.id m.arg1 m.arg2).2
      refine ⟨?_, ?_⟩
      · simp only [post_all, hs, if_neg, Bool.false_eq_true, not_false_eq_true,
          List.nil_append]
        rw [h2.1, hfr]
      · simp only [post_all, hs, if_neg, Bool.false_eq_true, not_false_eq_true,
          List.nil_append]
        exact h2.2.cons m
    · have hbuf := post_message_success_buf w m.id m.arg1 m.arg2 hs
      have h2 := ih (mxs_worker_post_message w m.id m.arg1 m.arg2).2
      refine ⟨?_, ?_⟩
      · simp only [post_all, hs, if_pos, List.singleton_append]
        rw [h2.1, hbuf]
        simp
      · simp only [post_all, hs, if_pos, List.singleton_append]
        exact h2.2.cons₂ m

/-- C6: single-poster FIFO — after one thread posts the messages ms in
order to one worker, draining the channel dispatches exactly the previous
channel content followed by the accepted messages, and the accepted
messages form a sub-sequence of ms in the original send order. -/
theorem C6_single_poster_fifo (w : MXS_WORKER) (ms : List Message) :
    (drain (post_all w ms).1.channel).1
      = w.channel.buf ++ (post_all w ms).2 ∧
    (post_all w ms).2.Sublist ms :=
  post_all_spec ms w

/-- One loop round on a batch without SHUTDOWN dispatches it and goes on. -/
theorem run_loop_cons_noshut (x : List Message) (rest : List (List Message))
    (hx : has_shutdown x = false) :
    run_loop (x :: rest) = (x ++ (run_loop rest).1, (run_loop rest).2) := by
  simp [run_loop, hx]

/-- One loop round on a batch with SHUTDOWN dispatches it and exits. -/
theorem run_loop_cons_shut (x : List Message) (rest : List (List Message))
    (hx : has_shutdown x = true) :
    run_loop (x :: rest) = (x, true) := by
  simp [run_loop, hx]

/-- The event loop exits exactly when some drained batch held SHUTDOWN. -/
theorem run_loop_exits_iff (batches : List (List Message)) :
    (run_loop batches).2 = true ↔ ∃ b ∈ batches, has_shutdown b = true := by
  induction batches with
  | nil => simp [run_loop]
  | cons b rest ih =>
    by_cases h : has_shutdown b = true
    · rw [run_loop_cons_shut b rest h]
      constructor
      · intro _; exact ⟨b, by simp, h⟩
      · intro _; rfl
    · have hb : has_shutdown b = false := by
        cases hh : has_shutdown b
        · rfl
        · exact absurd hh h
      rw [run_loop_cons_noshut b rest hb]
      constructor
      · intro he
        rcases ih.mp he with ⟨x, hx, hsx⟩
        exact ⟨x, by simp [hx], hsx⟩
      · rintro ⟨x, hx, hsx⟩
        rcases List.mem_cons.mp hx with hx | hx
        · rw [hx] at hsx; exact absurd hsx h
        · exact ih.mpr ⟨x, hx, hsx⟩

/-- Dispatch stops with the batch that carries SHUTDOWN. -/
theorem run_loop_dispatch (b : List Message) (post : List (List Message))
    (hb : has_shutdown b = true) : ∀ pre : List (List Message),
    (∀ x ∈ pre, has_shutdown x = false) →
    (run_loop (pre ++ b :: post)).1 = pre.flatten ++ b := by
  intro pre
  induction pre with
  | nil =>
    intro _
    rw [List.nil_append, run_loop_cons_shut b post hb]
    simp
  | cons x xs ih =>
    intro hpre
    have hx : has_shutdown x = false := hpre x (by simp)
    rw [List.cons_append, run_loop_cons_noshut x (xs ++ b :: post) hx]
    show x ++ (run_loop (xs ++ b :: post)).1 = (x :: xs).flatten ++ b
    rw [ih (fun y hy => hpre y (by simp [hy]))]
    simp [List.append_assoc]

/-- C7: draining a SHUTDOWN record is the only way the loop exits — the
exit flag is true exactly when some drained batch contains SHUTDOWN — and
when the first such batch is drained, the dispatched sequence is exactly
the earlier batches followed by the whole current batch, so no message
enqueued strictly afterwards is ever dispatched. -/
theorem C7_shutdown_terminality (batches : List (List Message)) :
    ((run_loop batches).2 = true ↔ ∃ b ∈ batches, has_shutdown b = true) ∧
    (∀ pre b post, batches = pre ++ b :: post →
      (∀ x ∈ pre, has_shutdown x = false) → has_shutdown b = true →
      (run_loop batches).1 = pre.flatten ++ b) := by
  refine ⟨run_loop_exits_iff batches, ?_⟩
  intro pre b post hsplit hpre hb
  rw [hsplit]
  exact run_loop_dispatch b post hb pre hpre

/-- Witness for C7: a PING batch, then a batch with SHUTDOWN, then a later
PING batch; the loop exits and dispatches only the first two batches. -/
theorem C7_shutdown_terminality_witness :
    (run_loop [[Message.mk MsgId.PING 0 0], [Message.mk MsgId.SHUTDOWN 0 0],
               [Message.mk MsgId.PING 1 1]]).2 = true ∧
    (run_loop [[Message.mk MsgId.PING 0 0], [Message.mk MsgId.SHUTDOWN 0 0],
               [Message.mk MsgId.PING 1 1]]).1
      = List.flatten [[Message.mk MsgId.PING 0 0]]
          ++ [Message.mk MsgId.SHUTDOWN 0 0] :=
  ⟨(C7_shutdown_terminality _).1.mpr
     ⟨[Message.mk MsgId.SHUTDOWN 0 0], by simp, by decide⟩,
   (C7_shutdown_terminality _).2 [[Message.mk MsgId.PING 0 0]]
     [Message.mk MsgId.SHUTDOWN 0 0] [[Message.mk MsgId.PING 1 1]] rfl
     (by decide) (by decide)⟩

end Worker

namespace NamedServer

/-- Unfolding of the scan at a cons cell. -/
theorem find_servers_cons (pm : String → String → Int) (e : RegexToServers)
    (rest : List RegexToServers) (sql : String) :
    find_servers pm (e :: rest) sql
      = if pm e.m_match sql ≥ 0 then (pm e.m_match sql, e.m_servers)
        else if pm e.m_match sql = PCRE2_ERROR_NOMATCH then
          find_servers pm rest sql
        else (pm e.m_match sql, []) := rfl

/-- A scan over entries that all report no-match yields NOMATCH. -/
theorem find_servers_all_nomatch (pm : String → String → Int) (sql : String) :
    ∀ l : List RegexToServers,
    (∀ x ∈ l, pm x.m_match sql = PCRE2_ERROR_NOMATCH) →
    find_servers pm l sql = (PCRE2_ERROR_NOMATCH, []) := by
  intro l
  induction l with
  | nil => intro _; rfl
  | cons e rest ih =>
    intro h
    have he := h e (by simp)
    rw [find_servers_cons,
        if_neg (by rw [he]; norm_num [PCRE2_ERROR_NOMATCH]), if_pos he]
    exact ih (fun x hx => h x (by simp [hx]))

/-- The scan returns the first entry that matches when every earlier entry
reported no-match. -/
theorem find_servers_first_match (pm : String → String → Int) (sql : String)
    (e : RegexToServers) (post : List RegexToServers)
    (he : pm e.m_match sql ≥ 0) :
    ∀ pre : List RegexToServers,
    (∀ x ∈ pre, pm x.m_match sql = PCRE2_ERROR_NOMATCH) →
    find_servers pm (pre ++ e :: post) sql = (pm e.m_match sql, e.m_servers) := by
  intro pre
  induction pre with
  | nil =>
    intro _
    rw [List.nil_append, find_servers_cons, if_pos he]
  | cons x xs ih =>
    intro h
    have hx := h x (by simp)
    rw [List.cons_append, find_servers_cons,
        if_neg (by rw [hx]; norm_num [PCRE2_ERROR_NOMATCH]), if_pos hx]
    exact ih (fun y hy => h y (by simp [hy]))

/-- A matching error reported before any match aborts the scan. -/
theorem find_servers_first_error (pm : String → String → Int) (sql : String)
    (e : RegexToServers) (post : List RegexToServers)
    (he1 : ¬ pm e.m_match sql ≥ 0) (he2 : pm e.m_match sql ≠ PCRE2_ERROR_NOMATCH) :
    ∀ pre : List RegexToServers,
    (∀ x ∈ pre, pm x.m_match sql = PCRE2_ERROR_NOMATCH) →
    find_servers pm (pre ++ e :: post) sql = (pm e.m_match sql, []) := by
  intro pre
  induction pre with
  | nil =>
    intro _
    rw [List.nil_append, find_servers_cons, if_neg he1, if_neg he2]
  | cons x xs ih =>
    intro h
    have hx := h x (by simp)
    rw [List.cons_append, find_servers_cons,
        if_neg (by rw [hx]; norm_num [PCRE2_ERROR_NOMATCH]), if_pos hx]
    exact ih (fun y hy => h y (by simp [hy]))

/-- routeQuery on an active session and an SQL buffer in the diverted
case. -/
theorem routeQuery_divert (pm : String → String → Int) (inst : RegexHintInst)
    (s : RegexHintSess) (q : GWBUF) (sql : String)
    (hact : s.active = true) (hq : q.sql = some sql)
    (hge : (find_servers pm inst.m_mapping sql).1 ≥ 0) :
    routeQuery pm inst s q
      = ({ s with n_diverted := s.n_diverted + 1 },
         { q with hint := attach_hints (find_servers pm inst.m_mapping sql).2 q.hint }) := by
  simp only [routeQuery, hq, hact]
  rw [if_pos hge]

/-- routeQuery on an active session and an SQL buffer in the no-match
case. -/
theorem routeQuery_nomatch (pm : String → String → Int) (inst : RegexHintInst)
    (s : RegexHintSess) (q : GWBUF) (sql : String)
    (hact : s.active = true) (hq : q.sql = some sql)
    (hnm : (find_servers pm inst.m_mapping sql).1 = PCRE2_ERROR_NOMATCH) :
    routeQuery pm inst s q
      = ({ s with n_undiverted := s.n_undiverted + 1 }, q) := by
  simp only [routeQuery, hq, hact]
  rw [if_neg (by rw [hnm]; norm_num [PCRE2_ERROR_NOMATCH]), if_pos hnm]

/-- routeQuery on an active session and an SQL buffer in the matching
error case. -/
theorem routeQuery_error (pm : String → String → Int) (inst : RegexHintInst)
    (s : RegexHintSess) (q : GWBUF) (sql : String)
    (hact : s.active = true) (hq : q.sql = some sql)
    (h1 : ¬ (find_servers pm inst.m_mapping sql).1 ≥ 0)
    (h2 : (find_servers pm inst.m_mapping sql).1 ≠ PCRE2_ERROR_NOMATCH) :
    routeQuery pm inst s q
      = ({ s with n_undiverted := s.n_undiverted + 1,
                  regex_error_printed := true }, q) := by
  simp only [routeQuery, hq, hact]
  rw [if_neg h1, if_neg h2]

/-- routeQuery on an inactive session or a non-SQL buffer changes
nothing. -/
theorem routeQuery_inactive (pm : String → String → Int) (inst : RegexHintInst)
    (s : RegexHintSess) (q : GWBUF)
    (h : q.sql = none ∨ s.active = false) :
    routeQuery pm inst s q = (s, q) := by
  rcases h with h | h
  · simp [routeQuery, h]
  · cases hs : q.sql with
    | none => simp [routeQuery, hs]
    | some sql => simp [routeQuery, hs, h]

/-- C1 (amended): for every active namedserverfilter session and SQL
buffer, the filter tries the mapping entries in order; when the scan
reaches an entry whose regex matches — every earlier entry reporting
no-match — one HINT_ROUTE_TO_NAMED_SERVER hint per server name of that
entry is attached to the buffer and the buffer is passed downstream; when
every entry reports no-match, or a matching error is reported before any
match, the buffer is passed downstream with its hints unchanged.  (The
proviso about errors is the amendment: as stated the claim overlooked
that a pcre2 matching error aborts the scan before a later entry could
match.) -/
theorem C1_route_hints (pm : String → String → Int) (inst : RegexHintInst)
    (s : RegexHintSess) (q : GWBUF) (sql : String)
    (hact : s.active = true) (hq : q.sql = some sql) :
    (∀ pre e post, inst.m_mapping = pre ++ e :: post →
      (∀ x ∈ pre, pm x.m_match sql = PCRE2_ERROR_NOMATCH) →
      pm e.m_match sql ≥ 0 →
      (routeQuery pm inst s q).2
        = { q with hint := attach_hints e.m_servers q.hint }) ∧
    ((∀ x ∈ inst.m_mapping, pm x.m_match sql = PCRE2_ERROR_NOMATCH) →
      (routeQuery pm inst s q).2 = q) ∧
    (∀ pre e post, inst.m_mapping = pre ++ e :: post →
      (∀ x ∈ pre, pm x.m_match sql = PCRE2_ERROR_NOMATCH) →
      ¬ pm e.m_match sql ≥ 0 → pm e.m_match sql ≠ PCRE2_ERROR_NOMATCH →
      (routeQuery pm inst s q).2 = q) := by
  refine ⟨?_, ?_, ?_⟩
  · intro pre e post hsplit hpre he
    have hf : find_servers pm inst.m_mapping sql = (pm e.m_match sql, e.m_servers) := by
      rw [hsplit]
      exact find_servers_first_match pm sql e post he pre hpre
    rw [routeQuery_divert pm inst s q sql hact hq (by rw [hf]; exact he)]
    rw [hf]
  · intro hall
    have hf := find_servers_all_nomatch pm sql inst.m_mapping hall
    rw [routeQuery_nomatch pm inst s q sql hact hq (by rw [hf])]
  · intro pre e post hsplit hpre he1 he2
    have hf : find_servers pm inst.m_mapping sql = (pm e.m_match sql, []) := by
      rw [hsplit]
      exact find_servers_first_error pm sql e post he1 he2 pre hpre
    rw [routeQuery_error pm inst s q sql hact hq
        (by rw [hf]; exact he1) (by rw [hf]; exact he2)]

/-- C1 is false as stated: with an active session and an SQL buffer, the
second mapping entry matches the statement, yet the filter attaches no
hint and forwards the buffer with hints unchanged, because the matching
error reported by the first entry aborts the scan. -/
theorem C1_counterexample :
    freshSess.active = true ∧
    sqlBuf.sql = some "q" ∧
    (∃ e ∈ errInst.m_mapping, errPm e.m_match "q" ≥ 0) ∧
    (routeQuery errPm errInst freshSess sqlBuf).2.hint = sqlBuf.hint ∧
    (∀ e ∈ errInst.m_mapping,
      attach_hints e.m_servers sqlBuf.hint ≠ sqlBuf.hint) := by
  decide

/-- Witness for C1 on a one-entry mapping whose regex matches: the hint
for its server is attached. -/
theorem C1_route_hints_witness :
    freshSess.active = true ∧ sqlBuf.sql = some "q" ∧
    (routeQuery okPm oneInst freshSess sqlBuf).2
      = { sqlBuf with hint := attach_hints ["server1"] sqlBuf.hint } := by
  refine ⟨rfl, rfl, ?_⟩
  exact (C1_route_hints okPm oneInst freshSess sqlBuf "q" rfl rfl).1
    [] (RegexToServers.mk "m" ["server1"]) [] rfl
    (by intro x hx; simp at hx) (by norm_num [okPm])

end NamedServer

namespace NamedServer

/-- routeQuery never changes the active flag of the session. -/
theorem routeQuery_active_preserved (pm : String → String → Int)
    (inst : RegexHintInst) (s : RegexHintSess) (q : GWBUF) :
    (routeQuery pm inst s q).1.active = s.active := by
  cases hs : q.sql with
  | none => rw [routeQuery_inactive pm inst s q (Or.inl hs)]
  | some sql =>
    cases ha : s.active with
    | false =>
      rw [routeQuery_inactive pm inst s q (Or.inr ha)]
      exact ha
    | true =>
      by_cases h1 : (find_servers pm inst.m_mapping sql).1 ≥ 0
      · rw [routeQuery_divert pm inst s q sql ha hs h1]
        exact ha
      · by_cases h2 : (find_servers pm inst.m_mapping sql).1 = PCRE2_ERROR_NOMATCH
        · rw [routeQuery_nomatch pm inst s q sql ha hs h2]
          exact ha
        · rw [routeQuery_error pm inst s q sql ha hs h1 h2]
          exact ha

/-- Each routeQuery call adds one to the counter sum exactly when the
session is active and the buffer is SQL. -/
theorem routeQuery_counter_sum (pm : String → String → Int)
    (inst : RegexHintInst) (s : RegexHintSess) (q : GWBUF) :
    (routeQuery pm inst s q).1.n_diverted
      + (routeQuery pm inst s q).1.n_undiverted
      = s.n_diverted + s.n_undiverted
        + (if s.active = true ∧ q.sql.isSome = true then 1 else 0) := by
  cases hs : q.sql with
  | none =>
    rw [routeQuery_inactive pm inst s q (Or.inl hs)]
    simp
  | some sql =>
    cases ha : s.active with
    | false =>
      rw [routeQuery_inactive pm inst s q (Or.inr ha)]
      simp
    | true =>
      by_cases h1 : (find_servers pm inst.m_mapping sql).1 ≥ 0
      · rw [routeQuery_divert pm inst s q sql ha hs h1]
        simp
        omega
      · by_cases h2 : (find_servers pm inst.m_mapping sql).1 = PCRE2_ERROR_NOMATCH
        · rw [routeQuery_nomatch pm inst s q sql ha hs h2]
          simp
          omega
        · rw [routeQuery_error pm inst s q sql ha hs h1 h2]
          simp
          omega

/-- Over a sequence of buffers the counter sum grows by the number of SQL
buffers, when the session is active, and not at all otherwise. -/
theorem routeAll_sum (pm : String → String → Int) (inst : RegexHintInst) :
    ∀ (qs : List GWBUF) (s : RegexHintSess),
    (routeAll pm inst s qs).n_diverted + (routeAll pm inst s qs).n_undiverted
      = s.n_diverted + s.n_undiverted
        + (if s.active = true then
             (qs.filter (fun b => b.sql.isSome)).length
           else 0) := by
  intro qs
  induction qs with
  | nil => intro s; simp [routeAll]
  | cons q rest ih =>
    intro s
    have h1 := routeQuery_counter_sum pm inst s q
    have h2 := routeQuery_active_preserved pm inst s q
    show (routeAll pm inst (routeQuery pm inst s q).1 rest).n_diverted
        + (routeAll pm inst (routeQuery pm inst s q).1 rest).n_undiverted = _
    rw [ih (routeQuery pm inst s q).1, h2, h1]
    by_cases ha : s.active = true
    · by_cases hb : q.sql.isSome = true
      · simp [ha, hb, List.filter_cons]
        omega
      · simp only [ha, hb, and_false, if_false, if_true, List.filter_cons]
        simp [hb]
    · simp [ha]

/-- C10: on an active session, each routeQuery call with an SQL buffer
increments exactly one of n_diverted (the scan found a match) and
n_undiverted (no match, or a matching error), leaving the active flag
unchanged, so over any buffer sequence the counter sum equals its initial
value plus the number of SQL buffers processed while active; a call on an
inactive session or with a non-SQL buffer leaves the session unchanged. -/
theorem C10_session_counters (pm : String → String → Int)
    (inst : RegexHintInst) (s : RegexHintSess) (q : GWBUF) :
    (∀ sql, q.sql = some sql → s.active = true →
      ((routeQuery pm inst s q).1.active = s.active ∧
       (((routeQuery pm inst s q).1.n_diverted = s.n_diverted + 1 ∧
         (routeQuery pm inst s q).1.n_undiverted = s.n_undiverted) ∨
        ((routeQuery pm inst s q).1.n_diverted = s.n_diverted ∧
         (routeQuery pm inst s q).1.n_undiverted = s.n_undiverted + 1)) ∧
       ((routeQuery pm inst s q).1.n_diverted = s.n_diverted + 1 ↔
         (find_servers pm inst.m_mapping sql).1 ≥ 0))) ∧
    ((q.sql = none ∨ s.active = false) → (routeQuery pm inst s q).1 = s) ∧
    (∀ qs : List GWBUF,
      (routeAll pm inst s qs).n_diverted + (routeAll pm inst s qs).n_undiverted
        = s.n_diverted + s.n_undiverted
          + (if s.active = true then
               (qs.filter (fun b => b.sql.isSome)).length
             else 0)) := by
  refine ⟨?_, ?_, ?_⟩
  · intro sql hq ha
    by_cases h1 : (find_servers pm inst.m_mapping sql).1 ≥ 0
    · rw [routeQuery_divert pm inst s q sql ha hq h1]
      refine ⟨rfl, Or.inl ⟨rfl, rfl⟩, ?_⟩
      simp [h1]
    · by_cases h2 : (find_servers pm inst.m_mapping sql).1 = PCRE2_ERROR_NOMATCH
      · rw [routeQuery_nomatch pm inst s q sql ha hq h2]
        refine ⟨rfl, Or.inr ⟨rfl, rfl⟩, ?_⟩
        simp [h1]
      · rw [routeQuery_error pm inst s q sql ha hq h1 h2]
        refine ⟨rfl, Or.inr ⟨rfl, rfl⟩, ?_⟩
        simp [h1]
  · intro h
    rw [routeQuery_inactive pm inst s q h]
  · intro qs
    exact routeAll_sum pm inst qs s

/-- Witness for C10 at a matching one-entry mapping: the call diverts the
statement and increments n_diverted. -/
theorem C10_session_counters_witness :
    sqlBuf.sql = some "q" ∧ freshSess.active = true ∧
    ((routeQuery okPm oneInst freshSess sqlBuf).1.active = freshSess.active ∧
     (((routeQuery okPm oneInst freshSess sqlBuf).1.n_diverted
         = freshSess.n_diverted + 1 ∧
       (routeQuery okPm oneInst freshSess sqlBuf).1.n_undiverted
         = freshSess.n_undiverted) ∨
      ((routeQuery okPm oneInst freshSess sqlBuf).1.n_diverted
         = freshSess.n_diverted ∧
       (routeQuery okPm oneInst freshSess sqlBuf).1.n_undiverted
         = freshSess.n_undiverted + 1)) ∧
     ((routeQuery okPm oneInst freshSess sqlBuf).1.n_diverted
         = freshSess.n_diverted + 1 ↔
       (find_servers okPm oneInst.m_mapping "q").1 ≥ 0)) :=
  ⟨rfl, rfl, (C10_session_counters okPm oneInst freshSess sqlBuf).1 "q" rfl rfl⟩

end NamedServer

namespace NamedServer

/-- The parameter loop appends exactly the good entries and raises the
error flag exactly when some configured pair is bad. -/
theorem mapping_fold_spec (compileOk : String → Bool) :
    ∀ (params : List (String × String)) (m0 : List RegexToServers) (e0 : Bool),
    params.foldl (mapping_step compileOk) (m0, e0)
      = (m0 ++ good_entries compileOk params,
         e0 || params.any (bad_pair compileOk)) := by
  intro params
  induction params with
  | nil => intro m0 e0; simp [good_entries]
  | cons p rest ih =>
    intro m0 e0
    simp only [List.foldl_cons, List.any_cons, good_entries, List.filterMap_cons]
    by_cases h1 : p.1.length < 1 ∨ p.2.length < 1
    · have e1 : (p.1.length == 0 || p.2.length == 0) = true := by
        rcases h1 with h | h
        · simp [Nat.lt_one_iff.mp h]
        · simp [Nat.lt_one_iff.mp h]
      have e2 : bad_pair compileOk p = false := by
        unfold bad_pair
        rcases h1 with h | h
        · simp [Nat.lt_one_iff.mp h]
        · simp [Nat.lt_one_iff.mp h]
      have e3 : mapping_step compileOk (m0, e0) p = (m0, e0) := by
        unfold mapping_step
        rw [if_pos h1]
      rw [e3, ih, e2, e1]
      simp [good_entries]
    · have h1n : ¬ (p.1.length < 1 ∨ p.2.length < 1) := h1
      push_neg at h1
      have e1 : (p.1.length == 0 || p.2.length == 0) = false := by
        simp only [Bool.or_eq_false_iff, beq_eq_false_iff_ne, Ne]
        omega
      by_cases hc : compileOk p.1 = true
      · by_cases hsv : (add_servers p.2).length = 0
        · have e3 : mapping_step compileOk (m0, e0) p = (m0, true) := by
            unfold mapping_step
            rw [if_neg h1n, if_pos hc, if_neg (by simpa using hsv)]
          have e2 : bad_pair compileOk p = true := by
            unfold bad_pair
            simp only [Bool.and_eq_true, Bool.or_eq_true, Bool.not_eq_true',
              beq_eq_false_iff_ne, Ne, beq_iff_eq]
            refine ⟨⟨by omega, by omega⟩, Or.inr hsv⟩
          have hb : ((add_servers p.2).length == 0) = true := by simpa using hsv
          rw [e3, ih, e2, e1]
          simp [good_entries, hc, hb]
        · have e3 : mapping_step compileOk (m0, e0) p
              = (m0 ++ [RegexToServers.mk p.1 (add_servers p.2)], e0) := by
            unfold mapping_step
            rw [if_neg h1n, if_pos hc, if_pos hsv]
          have hb : ((add_servers p.2).length == 0) = false := by simpa using hsv
          have e2 : bad_pair compileOk p = false := by
            unfold bad_pair
            simp [hc, hb]
          rw [e3, ih, e2, e1]
          simp [good_entries, hc, hb, List.append_assoc]
      · have hcf : compileOk p.1 = false := by
          cases hcc : compileOk p.1
          · rfl
          · exact absurd hcc hc
        have e3 : mapping_step compileOk (m0, e0) p = (m0, true) := by
          unfold mapping_step
          rw [if_neg h1n, if_neg (by simp [hcf])]
        have e2 : bad_pair compileOk p = true := by
          unfold bad_pair
          simp only [hcf, Bool.not_false, Bool.true_or, Bool.and_true]
          simp only [Bool.and_eq_true, Bool.not_eq_true', beq_eq_false_iff_ne, Ne]
          exact ⟨by omega, by omega⟩
        rw [e3, ih, e2, e1]
        simp [good_entries, hcf]

end NamedServer

namespace NamedServer

/-- form_regex_server_mapping produces either the full good mapping or,
when some configured pair is bad, nothing. -/
theorem form_mapping_spec (compileOk : String → Bool)
    (params : List (String × String)) :
    form_regex_server_mapping compileOk params
      = if params.any (bad_pair compileOk) then []
        else good_entries compileOk params := by
  show (if (params.foldl (mapping_step compileOk) ([], false)).2 then []
        else (params.foldl (mapping_step compileOk) ([], false)).1) = _
  rw [mapping_fold_spec compileOk params [] false]
  simp only [Bool.false_or, List.nil_append]

/-- C8: namedserverfilter instance creation is all-or-nothing: if any
configured pair has a regex that fails to compile or a server list that
parses to no names, the whole mapping is cleared and createInstance
returns NULL; and a created instance always carries the full mapping —
one entry per configured pair, each compiled with a non-empty server
list — never a partial one. -/
theorem C8_create_all_or_nothing (compileOk setipOk : String → Bool)
    (source_cfg : String) (params : List (String × String)) :
    (∀ p ∈ params, 1 ≤ p.1.length → 1 ≤ p.2.length →
      (compileOk p.1 = false ∨ add_servers p.2 = []) →
      (form_regex_server_mapping compileOk params = [] ∧
       createInstance compileOk setipOk source_cfg params = none)) ∧
    (∀ inst, createInstance compileOk setipOk source_cfg params = some inst →
      (inst.m_mapping = good_entries compileOk params ∧
       ∀ p ∈ params, 1 ≤ p.1.length → 1 ≤ p.2.length →
         (compileOk p.1 = true ∧ add_servers p.2 ≠ []))) := by
  constructor
  · intro p hp hl1 hl2 hbad
    have hbp : bad_pair compileOk p = true := by
      unfold bad_pair
      simp only [Bool.and_eq_true, Bool.or_eq_true, Bool.not_eq_true',
        beq_eq_false_iff_ne, Ne, Bool.not_eq_true, beq_iff_eq]
      refine ⟨⟨by omega, by omega⟩, ?_⟩
      rcases hbad with h | h
      · exact Or.inl h
      · exact Or.inr (by rw [h]; rfl)
    have hany : params.any (bad_pair compileOk) = true :=
      List.any_eq_true.mpr ⟨p, hp, hbp⟩
    have hform : form_regex_server_mapping compileOk params = [] := by
      rw [form_mapping_spec, if_pos hany]
    refine ⟨hform, ?_⟩
    show (if (form_regex_server_mapping compileOk params).length = 0 then none
          else _) = none
    rw [hform]
    rfl
  · intro inst hsome
    have hcases :
        createInstance compileOk setipOk source_cfg params
          = (if (form_regex_server_mapping compileOk params).length = 0 then none
             else some (RegexHintInst.mk
               (form_regex_server_mapping compileOk params)
               (if source_cfg ≠ "" then
                  some (set_source_address setipOk source_cfg)
                else none))) := rfl
    rw [hcases] at hsome
    by_cases hlen : (form_regex_server_mapping compileOk params).length = 0
    · rw [if_pos hlen] at hsome
      cases hsome
    · rw [if_neg hlen] at hsome
      have hany : params.any (bad_pair compileOk) = false := by
        cases hh : params.any (bad_pair compileOk)
        · rfl
        · exfalso
          apply hlen
          rw [form_mapping_spec, if_pos hh]
          rfl
      have hform : form_regex_server_mapping compileOk params
          = good_entries compileOk params := by
        rw [form_mapping_spec, if_neg (by simp [hany])]
      have hmap : inst.m_mapping = good_entries compileOk params := by
        have := congrArg RegexHintInst.m_mapping (Option.some.inj hsome)
        rw [← this, hform]
      refine ⟨hmap, ?_⟩
      intro p hp hl1 hl2
      have hnb : bad_pair compileOk p = false := by
        cases hh : bad_pair compileOk p
        · rfl
        · exfalso
          have : params.any (bad_pair compileOk) = true :=
            List.any_eq_true.mpr ⟨p, hp, hh⟩
          rw [this] at hany
          cases hany
      unfold bad_pair at hnb
      simp only [Bool.and_eq_false_iff, Bool.not_eq_false', beq_iff_eq,
        Bool.or_eq_false_iff, Bool.not_eq_false, beq_eq_false_iff_ne, Ne] at hnb
      rcases hnb with (h | h) | ⟨hcomp, hsv⟩
      · omega
      · omega
      · refine ⟨hcomp, ?_⟩
        intro hnil
        exact hsv (by rw [hnil]; rfl)

/-- Witness for C8: a two-pair configuration whose second regex fails to
compile yields no instance and an empty mapping. -/
theorem C8_create_all_or_nothing_witness :
    (("abc", "s2") ∈ [("ab", "s1"), ("abc", "s2")]) ∧
    shortOk "abc" = false ∧
    form_regex_server_mapping shortOk [("ab", "s1"), ("abc", "s2")] = [] ∧
    createInstance shortOk allIp "" [("ab", "s1"), ("abc", "s2")] = none := by
  have h := (C8_create_all_or_nothing shortOk allIp ""
      [("ab", "s1"), ("abc", "s2")]).1
      ("abc", "s2") (by simp) (by decide) (by decide) (Or.inl (by decide))
  exact ⟨by simp, by decide, h.1, h.2⟩

end NamedServer

namespace NamedServer

/-- Unfolding of the validation walk at a cons cell. -/
theorem validate_loop_cons (c : Char) (rest : List Char) (n : Nat) :
    validate_loop (c :: rest) n
      = if ¬(c.isDigit ∨ c = '.' ∨ c = '%') then (n, false)
        else validate_loop rest (if c = '.' then n + 1 else n) := rfl

/-- The walk accepts exactly when every character is a digit, a dot or a
percent. -/
theorem validate_loop_ok_iff (cs : List Char) : ∀ n : Nat,
    (validate_loop cs n).2 = true ↔
      ∀ c ∈ cs, (c.isDigit ∨ c = '.' ∨ c = '%') := by
  induction cs with
  | nil => intro n; simp [validate_loop]
  | cons c rest ih =>
    intro n
    by_cases hc : c.isDigit ∨ c = '.' ∨ c = '%'
    · rw [validate_loop_cons, if_neg (not_not_intro hc), ih]
      constructor
      · intro h x hx
        rcases List.mem_cons.mp hx with hx | hx
        · rw [hx]; exact hc
        · exact h x hx
      · intro h x hx
        exact h x (List.mem_cons_of_mem c hx)
    · rw [validate_loop_cons, if_pos hc]
      constructor
      · intro h; simp at h
      · intro h; exact absurd (h c (by simp)) hc

/-- On accepted characters the walk adds the number of dots to its
accumulator. -/
theorem validate_loop_count (cs : List Char) : ∀ n : Nat,
    (∀ c ∈ cs, (c.isDigit ∨ c = '.' ∨ c = '%')) →
    (validate_loop cs n).1 = n + cs.count '.' := by
  induction cs with
  | nil => intro n _; simp [validate_loop]
  | cons c rest ih =>
    intro n h
    have hc := h c (by simp)
    rw [validate_loop_cons, if_neg (not_not_intro hc),
        ih _ (fun x hx => h x (List.mem_cons_of_mem c hx))]
    by_cases hd : c = '.'
    · subst hd
      rw [if_pos rfl, List.count_cons]
      simp
      omega
    · have hb : (c == '.') = false := beq_eq_false_iff_ne.mpr hd
      have hb2 : (('.' : Char) == c) = false :=
        beq_eq_false_iff_ne.mpr (fun hh => hd hh.symm)
      rw [if_neg hd, List.count_cons]
      simp [hb, hb2]

/-- validate_ip_address accepts exactly the strings with three dots, no
leading percent or dot, no trailing dot, length at most INET_ADDRSTRLEN
and only digit, dot or percent characters. -/
theorem validate_ip_address_iff (host : String) :
    validate_ip_address host = true ↔
      (host.toList.count '.' = 3 ∧
       host.toList.head? ≠ some '%' ∧
       host.toList.head? ≠ some '.' ∧
       host.toList.getLast? ≠ some '.' ∧
       host.toList.length ≤ INET_ADDRSTRLEN ∧
       ∀ c ∈ host.toList, (c.isDigit ∨ c = '.' ∨ c = '%')) := by
  show (if host.toList.head? = some '%' ∨ host.toList.head? = some '.'
          ∨ host.toList.length > INET_ADDRSTRLEN then false
        else if (validate_loop host.toList 0).2 then
          (((validate_loop host.toList 0).1 == 3)
            && !(host.toList.getLast? == some '.'))
        else false) = true ↔ _
  by_cases h0 : host.toList.head? = some '%' ∨ host.toList.head? = some '.'
      ∨ host.toList.length > INET_ADDRSTRLEN
  · rw [if_pos h0]
    constructor
    · intro h; simp at h
    · rintro ⟨_, h2, h3, _, h5, _⟩
      rcases h0 with h | h | h
      · exact absurd h h2
      · exact absurd h h3
      · omega
  · rw [if_neg h0]
    push_neg at h0
    obtain ⟨h1, h2, h3⟩ := h0
    by_cases hv : (validate_loop host.toList 0).2 = true
    · rw [if_pos hv]
      have hall := (validate_loop_ok_iff host.toList 0).mp hv
      have hcount := validate_loop_count host.toList 0 hall
      simp only [hcount, Nat.zero_add, Bool.and_eq_true, beq_iff_eq,
        Bool.not_eq_true', beq_eq_false_iff_ne, Ne]
      constructor
      · rintro ⟨hc3, hl⟩
        exact ⟨hc3, h1, h2, hl, by omega, hall⟩
      · rintro ⟨hc3, _, _, hl, _, _⟩
        exact ⟨hc3, hl⟩
    · rw [if_neg hv]
      constructor
      · intro h; simp at h
      · rintro ⟨_, _, _, _, _, hall⟩
        exact absurd ((validate_loop_ok_iff host.toList 0).mpr hall) hv

/-- As long as at most three dots can still be passed, the loop runs to
the end of the string and subtracts eight from the netmask per percent. -/
theorem format_loop_netmask (cs : List Char) : ∀ (bytes : Nat) (nm : Int),
    bytes + cs.count '.' ≤ 3 →
    (format_loop cs bytes nm).2 = nm - 8 * cs.count '%' := by
  induction cs with
  | nil => intro bytes nm _; simp [format_loop]
  | cons c rest ih =>
    intro bytes nm h
    have h3 : ¬ bytes > 3 := by omega
    simp only [format_loop]
    rw [if_neg h3]
    by_cases hc : c = '%'
    · rw [if_pos hc]
      have hdots : (c :: rest).count '.' = rest.count '.' := by
        subst hc
        have hb : (('%' : Char) == '.') = false := by decide
        have hb2 : (('.' : Char) == '%') = false := by decide
        simp [List.count_cons, hb, hb2]
      have hpct : (c :: rest).count '%' = rest.count '%' + 1 := by
        subst hc
        simp [List.count_cons]
      show (format_loop rest bytes (nm - 8)).2
          = nm - 8 * ((c :: rest).count '%' : Int)
      rw [ih bytes (nm - 8) (by omega), hpct]
      push_cast
      ring
    · rw [if_neg hc]
      have hpct : (c :: rest).count '%' = rest.count '%' := by
        have hb : (c == '%') = false := beq_eq_false_iff_ne.mpr hc
        have hb2 : (('%' : Char) == c) = false :=
          beq_eq_false_iff_ne.mpr (fun hh => hc hh.symm)
        simp [List.count_cons, hb, hb2]
      show (format_loop rest (if c = '.' then bytes + 1 else bytes) nm).2
          = nm - 8 * ((c :: rest).count '%' : Int)
      by_cases hd : c = '.'
      · have hdots : (c :: rest).count '.' = rest.count '.' + 1 := by
          subst hd
          simp [List.count_cons]
        rw [if_pos hd, ih (bytes + 1) nm (by omega), hpct]
      · have hdots : (c :: rest).count '.' = rest.count '.' := by
          have hb : (c == '.') = false := beq_eq_false_iff_ne.mpr hd
          have hb2 : (('.' : Char) == c) = false :=
            beq_eq_false_iff_ne.mpr (fun hh => hd hh.symm)
          simp [List.count_cons, hb, hb2]
        rw [if_neg hd, ih bytes nm (by omega), hpct]

end NamedServer

namespace NamedServer

/-- Branch characterization of set_source_address. -/
theorem set_source_address_eq (setipOk : String → Bool) (host : String) :
    set_source_address setipOk host
      = if ¬ validate_ip_address host then SOURCE_HOST.mk none 0
        else if ¬ host.toList.contains '%' then SOURCE_HOST.mk (some host) 32
        else if setipOk (String.mk (format_loop host.toList 0 32).1)
                 ∧ (String.mk (format_loop host.toList 0 32).1).length ≠ 0 then
          SOURCE_HOST.mk (some host) (format_loop host.toList 0 32).2
        else SOURCE_HOST.mk none (format_loop host.toList 0 32).2 := by
  simp only [set_source_address]

/-- C9: a source host string is accepted (its address recorded) only when
it has exactly three dots, does not begin with a percent or a dot, does
not end with a dot, is at most INET_ADDRSTRLEN characters long and
consists only of digits, dots and percent wildcards; every accepted
string yields netmask 32 minus 8 per percent wildcard; any string failing
the conditions leaves the source address unusable (NULL). -/
theorem C9_source_acceptance (setipOk : String → Bool) (host : String) :
    ((set_source_address setipOk host).address.isSome = true →
      ((host.toList.count '.' = 3 ∧
        host.toList.head? ≠ some '%' ∧
        host.toList.head? ≠ some '.' ∧
        host.toList.getLast? ≠ some '.' ∧
        host.toList.length ≤ INET_ADDRSTRLEN ∧
        ∀ c ∈ host.toList, (c.isDigit ∨ c = '.' ∨ c = '%')) ∧
       (set_source_address setipOk host).netmask
         = 32 - 8 * (host.toList.count '%' : Int))) ∧
    (¬(host.toList.count '.' = 3 ∧
       host.toList.head? ≠ some '%' ∧
       host.toList.head? ≠ some '.' ∧
       host.toList.getLast? ≠ some '.' ∧
       host.toList.length ≤ INET_ADDRSTRLEN ∧
       ∀ c ∈ host.toList, (c.isDigit ∨ c = '.' ∨ c = '%')) →
      (set_source_address setipOk host).address = none) := by
  rw [set_source_address_eq]
  by_cases hv : validate_ip_address host = true
  · rw [if_neg (not_not_intro hv)]
    have hcond := (validate_ip_address_iff host).mp hv
    have hc1 := hcond.1
    have hnm : (format_loop host.toList 0 32).2
        = 32 - 8 * (host.toList.count '%' : Int) :=
      format_loop_netmask host.toList 0 32 (by omega)
    constructor
    · intro _
      refine ⟨hcond, ?_⟩
      by_cases hw : ¬ host.toList.contains '%' = true
      · rw [if_pos hw]
        have hcf : host.toList.contains '%' = false := by
          cases hh : host.toList.contains '%'
          · rfl
          · exact absurd hh hw
        have hnot : ('%' : Char) ∉ host.toList := by
          simpa using hcf
        show (32 : Int) = 32 - 8 * (host.toList.count '%' : Int)
        rw [List.count_eq_zero.mpr hnot]
        norm_num
      · rw [if_neg hw]
        by_cases hs : setipOk (String.mk (format_loop host.toList 0 32).1) = true
            ∧ (String.mk (format_loop host.toList 0 32).1).length ≠ 0
        · rw [if_pos hs]
          exact hnm
        · rw [if_neg hs]
          exact hnm
    · intro hnc
      exact absurd hcond hnc
  · rw [if_pos hv]
    constructor
    · intro hsome
      simp at hsome
    · intro _
      rfl

/-- Witness for C9: a wildcard host with two percents is accepted with
netmask 16, and a host starting with a percent is rejected. -/
theorem C9_source_acceptance_witness :
    (set_source_address allIp "1.2.%.%").address.isSome = true ∧
    (set_source_address allIp "1.2.%.%").netmask
        = 32 - 8 * (("1.2.%.%".toList.count '%' : Nat) : Int) ∧
    ("1.2.%.%".toList.count '%' : Nat) = 2 ∧
    (set_source_address allIp "%1.2.3.4").address = none := by
  refine ⟨by decide, ?_, by decide, ?_⟩
  · exact ((C9_source_acceptance allIp "1.2.%.%").1 (by decide)).2
  · exact (C9_source_acceptance allIp "%1.2.3.4").2 (by decide)

end NamedServer
